import Mathlib

/-!
Verification of the inquiry-flow controller and summarization boundary of the
"what-do-you-feel" application.

The embedding translates `src/src/App.tsx` (the inquiry flow controller) and
`src/api/process.ts` (the summarization API handler) into Lean.  JavaScript
strings become `String`, JavaScript numbers used as counters become `Nat`,
optional / possibly-absent values become `Option`, and the asynchronous fetch
of the summarization call becomes an explicit `FetchResult` parameter that the
step function consumes.
-/

namespace WDYF

/-- Embeds JavaScript `String.prototype.trim` on the character list:
remove leading and trailing whitespace characters. -/
def trimChars (l : List Char) : List Char :=
  ((l.dropWhile Char.isWhitespace).reverse.dropWhile Char.isWhitespace).reverse

/-- Embeds JavaScript `s.trim()`. -/
def jsTrim (s : String) : String :=
  String.mk (trimChars s.data)

/-- The `screen` state of `App.tsx`: `welcome | inquiry | processing | output`. -/
inductive Screen where
  | welcome
  | inquiry
  | processing
  | output
deriving DecidableEq, Repr

/-- The `InquiryEntry` record of `App.tsx` and `process.ts`: question, answer, depth. -/
structure InquiryEntry where
  question : String
  answer : String
  depth : Nat
deriving DecidableEq, Repr

/-- The `ProcessedOutput` record of `App.tsx`: the five narrative fields. -/
structure ProcessedOutput where
  coreFeeling : String
  bodyWisdom : String
  underlyingNeed : String
  integration : String
  shift : String
deriving DecidableEq, Repr

/-- The `INITIAL_QUESTIONS` list of `App.tsx`. -/
def INITIAL_QUESTIONS : List String :=
  ["What do you feel right now?",
   "Where do you feel it in your body?",
   "What does this feeling need from you?"]

/-- The `DEEPENING_QUESTIONS` pool of `App.tsx`. -/
def DEEPENING_QUESTIONS : List String :=
  ["What\x27s underneath that?",
   "If this feeling could speak, what would it say?",
   "What are you afraid might happen?",
   "What do you really need right now?",
   "What would help you feel safe?",
   "Is there something you haven\x27t allowed yourself to feel?"]

/-- The component state of `App.tsx`: `screen`, `entries`, `currentAnswer`,
`currentQuestionIndex`, `depth`, `output`. -/
structure AppState where
  screen : Screen
  entries : List InquiryEntry
  currentAnswer : String
  currentQuestionIndex : Nat
  depth : Nat
  output : Option ProcessedOutput
deriving DecidableEq, Repr

/-- Embeds `getCurrentQuestion` of `App.tsx` expressed over the two counters; JavaScript
indexing inside the guard is in bounds, embedded with `List.getD`. -/
def getCurrentQuestionAt (questionIndex depth : Nat) : String :=
  if depth = 0 ∧ questionIndex < INITIAL_QUESTIONS.length then
    INITIAL_QUESTIONS.getD questionIndex ""
  else
    DEEPENING_QUESTIONS.getD ((questionIndex + depth) % DEEPENING_QUESTIONS.length) ""

/-- Embeds `getCurrentQuestion` of `App.tsx` on the component state. -/
def getCurrentQuestion (s : AppState) : String :=
  getCurrentQuestionAt s.currentQuestionIndex s.depth

/-- The initial component state of `App.tsx` (`useState` initializers). -/
def initState : AppState :=
  { screen := .welcome
    entries := []
    currentAnswer := ""
    currentQuestionIndex := 0
    depth := 0
    output := none }

/-- Embeds `handleStart` of `App.tsx`: go to the inquiry screen and reset the flow
state (it does not touch `output`). -/
def handleStart (s : AppState) : AppState :=
  { s with
    screen := .inquiry
    entries := []
    currentAnswer := ""
    currentQuestionIndex := 0
    depth := 0 }

/-- Embeds `handleNext` of `App.tsx`: guarded on a non-empty trimmed buffer, commit the
entry and advance the counters. -/
def handleNext (s : AppState) : AppState :=
  if jsTrim s.currentAnswer = "" then s
  else
    let newEntry : InquiryEntry :=
      { question := getCurrentQuestion s, answer := jsTrim s.currentAnswer, depth := s.depth }
    let newEntries := s.entries ++ [newEntry]
    if s.depth = 0 ∧ s.currentQuestionIndex < INITIAL_QUESTIONS.length - 1 then
      { s with
        entries := newEntries
        currentQuestionIndex := s.currentQuestionIndex + 1
        currentAnswer := "" }
    else if s.depth = 0 then
      { s with
        entries := newEntries
        depth := 1
        currentQuestionIndex := 0
        currentAnswer := "" }
    else
      { s with
        entries := newEntries
        currentQuestionIndex := s.currentQuestionIndex + 1
        currentAnswer := "" }

/-- Embeds `handleGoDeeper` of `App.tsx`: delegates to `handleNext`. -/
def handleGoDeeper (s : AppState) : AppState :=
  handleNext s

/-- The `finalEntries` list built by `handleComplete` of `App.tsx`: append the
current buffer as a final entry when its trim is non-empty, else keep `entries`. -/
def finalEntries (s : AppState) : List InquiryEntry :=
  if jsTrim s.currentAnswer = "" then s.entries
  else s.entries ++
    [{ question := getCurrentQuestion s, answer := jsTrim s.currentAnswer, depth := s.depth }]

/-- The synchronous part of `handleComplete` plus the opening of `handleProcess`
in `App.tsx`: publish the finalized entries and show the processing screen. -/
def handleComplete (s : AppState) : AppState :=
  { s with entries := finalEntries s, screen := .processing }

/-- The outcome of the `fetch(/api/process, …)` call in `handleProcess` of
`App.tsx`: a network error, or a response with an `ok` flag and a body that
either decomposes into the expected fields or does not. -/
inductive FetchResult where
  | networkError
  | response (ok : Bool) (body : Option ProcessedOutput)
deriving DecidableEq, Repr

/-- JavaScript `xs[i] || d` on a list of strings: out-of-range indexing yields
`undefined` and an empty string is falsy, so both fall back to `d`. -/
def jsIndexOr (xs : List String) (i : Nat) (d : String) : String :=
  let v := xs.getD i ""
  if v = "" then d else v

/-- The local fallback of `handleProcess` in `App.tsx` (the `catch` branch):
a deterministic `ProcessedOutput` synthesized from the submitted entries. -/
def fallbackOutput (entriesToProcess : List InquiryEntry) : ProcessedOutput :=
  let feelings := (entriesToProcess.filter (fun e => e.depth = 0)).map (fun e => e.answer)
  let deeper := (entriesToProcess.filter (fun e => e.depth > 0)).map (fun e => e.answer)
  { coreFeeling := jsIndexOr feelings 0 "Something important surfaced."
    bodyWisdom := jsIndexOr feelings 1 "Your body is holding this."
    underlyingNeed :=
      if deeper.length > 0 then
        "Beneath the surface: " ++ deeper.getD (deeper.length - 1) ""
      else
        jsIndexOr feelings 2 "A need for presence."
    integration :=
      "You explored " ++ toString entriesToProcess.length ++
      " layers of feeling. The thread connecting them points toward what truly matters to you right now."
    shift :=
      if entriesToProcess.length > 3 then
        "By staying with your experience, you moved from the surface to something deeper."
      else
        "You touched something real. Consider returning to explore further." }

/-- The output published by `handleProcess` of `App.tsx` for a given fetch
outcome: the decoded body verbatim on success, the local fallback on any
failure (network error, non-ok status, undecodable body). -/
def processOutcome (entriesToProcess : List InquiryEntry) (r : FetchResult) : ProcessedOutput :=
  match r with
  | .networkError => fallbackOutput entriesToProcess
  | .response ok body =>
    if ok then
      match body with
      | some data => data
      | none => fallbackOutput entriesToProcess
    else fallbackOutput entriesToProcess

/-- The completion of `handleProcess` in `App.tsx`: starting from the processing
screen, publish the outcome for the submitted entries and show the output
screen (both the success path and the `catch` path end on `setScreen(output)`). -/
def resolveProcess (s : AppState) (r : FetchResult) : AppState :=
  { s with screen := .output, output := some (processOutcome s.entries r) }

/-- Embeds `handleReset` of `App.tsx`: back to the initial state. -/
def handleReset (_s : AppState) : AppState :=
  initState

/-- The user-level actions of the inquiry flow: start, typing into the answer
buffer, Next, Go deeper, Complete (with the environment-chosen fetch outcome),
and Reset. -/
inductive Action where
  | start
  | setAnswer (t : String)
  | next
  | goDeeper
  | complete (r : FetchResult)
  | reset

/-- One step of the inquiry flow controller. -/
def step (s : AppState) (a : Action) : AppState :=
  match a with
  | .start => handleStart s
  | .setAnswer t => { s with currentAnswer := t }
  | .next => handleNext s
  | .goDeeper => handleGoDeeper s
  | .complete r => resolveProcess (handleComplete s) r
  | .reset => handleReset s

/-- States reachable from the initial (Welcome) state by user actions. -/
inductive Reachable : AppState → Prop where
  | init : Reachable initState
  | step (s : AppState) (hs : Reachable s) (a : Action) : Reachable (step s a)

/-! ### The summarization API handler, `src/api/process.ts` -/

/-- The `RequestBody` of `process.ts`: the modern `entries` shape and the three
legacy flat fields, each possibly absent. -/
structure RequestBody where
  entries : Option (List InquiryEntry)
  whatYouFeel : Option String
  whereYouFeelIt : Option String
  whatItNeeds : Option String
deriving DecidableEq, Repr

/-- JavaScript truthiness of a possibly-absent string: `undefined` and the
empty string are falsy. -/
def legacyTruthy (o : Option String) : Bool :=
  match o with
  | none => false
  | some s => s ≠ ""

/-- Lines 30–40 of `process.ts`: `body.entries || []`, then the legacy flat
shape is converted to three depth-0 entries filtered by truthy answer when the
entries list is empty and some legacy field is truthy. -/
def normalizeEntries (body : RequestBody) : List InquiryEntry :=
  let entries := body.entries.getD []
  if entries.length = 0 ∧
      (legacyTruthy body.whatYouFeel ∨ legacyTruthy body.whereYouFeelIt ∨
        legacyTruthy body.whatItNeeds) then
    ([{ question := "What do you feel?", answer := body.whatYouFeel.getD "", depth := 0 },
      { question := "Where do you feel it?", answer := body.whereYouFeelIt.getD "", depth := 0 },
      { question := "What does it need?", answer := body.whatItNeeds.getD "", depth := 0 }]
      : List InquiryEntry).filter (fun e => e.answer ≠ "")
  else entries

/-- The demo fallback of `process.ts` (no configured credential), lines 44–60. -/
def demoFallback (entries : List InquiryEntry) : ProcessedOutput :=
  let initial := entries.filter (fun e => e.depth = 0)
  let deeper := entries.filter (fun e => e.depth > 0)
  { coreFeeling := jsIndexOr (initial.map (fun e => e.answer)) 0 "Something you shared."
    bodyWisdom := jsIndexOr (initial.map (fun e => e.answer)) 1 "Present in your body."
    underlyingNeed :=
      if deeper.length > 0 then
        (deeper.map (fun e => e.answer)).getD (deeper.length - 1) ""
      else
        jsIndexOr (initial.map (fun e => e.answer)) 2 "What you need."
    integration :=
      "You shared " ++ toString entries.length ++
      " reflections. There\x27s a thread connecting what you feel to what you need."
    shift := "Taking time to notice your experience is itself a form of self-care." }

/-- The fixed placeholder body of the `catch` branch of `process.ts`,
lines 156–165. -/
def handlerErrorFallback : ProcessedOutput :=
  { coreFeeling := "Something important surfaced for you today."
    bodyWisdom := "Your body is holding wisdom about this."
    underlyingNeed := "A part of you is asking for attention."
    integration := "By pausing to notice your experience, you\x27ve already begun the work of integration."
    shift := "Consider sitting with what came up. Sometimes the noticing itself is the healing." }

/-- The outcome of the handler call to the upstream language-model service
plus the decoding of its reply (lines 109–148 of `process.ts`): the fetch may
fail, the response may carry a non-ok status, the reply may not decode into a
JSON payload, or a payload is decoded. -/
inductive UpstreamResult where
  | fetchError
  | httpError
  | badBody
  | parsed (o : ProcessedOutput)
deriving DecidableEq, Repr

/-- A response produced by the handler: an HTTP status and either a plain-text
or a JSON body. -/
inductive HandlerBody where
  | text (s : String)
  | json (o : ProcessedOutput)
deriving DecidableEq, Repr

/-- A handler response: status code and body. `new Response(body)` without an
explicit status defaults to 200. -/
structure ApiResponse where
  status : Nat
  body : HandlerBody
deriving DecidableEq, Repr

/-- The `handler` of `process.ts`.  `parsedBody` is the outcome of
`request.json()` (`none` when it throws); `apiKey` is `process.env.CLAUDE_API_KEY`;
`upstream` is consumed only on the credentialed path.  Every thrown error inside
the `try` is answered by the `catch` branch: status 200 with the fixed
placeholder fields. -/
def handler (method : String) (parsedBody : Option RequestBody)
    (apiKey : Option String) (upstream : UpstreamResult) : ApiResponse :=
  if method ≠ "POST" then
    { status := 405, body := .text "Method not allowed" }
  else
    match parsedBody with
    | none => { status := 200, body := .json handlerErrorFallback }
    | some body =>
      let entries := normalizeEntries body
      match apiKey with
      | none => { status := 200, body := .json (demoFallback entries) }
      | some _ =>
        match upstream with
        | .parsed o => { status := 200, body := .json o }
        | _ => { status := 200, body := .json handlerErrorFallback }

/-! ### Theorems -/

/-- A sample inquiry state used to instantiate theorems with hypotheses. -/
def sampleState : AppState :=
  { screen := .inquiry
    entries := []
    currentAnswer := "  calm  "
    currentQuestionIndex := 0
    depth := 0
    output := none }

/-- C4: the current question is a deterministic function of the two counters:
`initialQuestions[questionIndex]` when `depth = 0` and the index is within the
fixed initial list, and otherwise
`deepeningPool[(questionIndex + depth) mod poolSize]`. -/
theorem getCurrentQuestionAt_spec (questionIndex depth : Nat) :
    (∀ (h0 : depth = 0) (hlt : questionIndex < INITIAL_QUESTIONS.length),
        getCurrentQuestionAt questionIndex depth =
          INITIAL_QUESTIONS.get ⟨questionIndex, hlt⟩) ∧
    (¬ (depth = 0 ∧ questionIndex < INITIAL_QUESTIONS.length) →
        getCurrentQuestionAt questionIndex depth =
          DEEPENING_QUESTIONS.get
            ⟨(questionIndex + depth) % DEEPENING_QUESTIONS.length,
              Nat.mod_lt _ (by decide)⟩) := by
  constructor
  · intro h0 hlt
    rw [getCurrentQuestionAt, if_pos ⟨h0, hlt⟩, List.getD_eq_getElem _ _ hlt]
    exact (List.get_eq_getElem INITIAL_QUESTIONS ⟨questionIndex, hlt⟩).symm
  · intro h
    rw [getCurrentQuestionAt, if_neg h,
      List.getD_eq_getElem _ _ (Nat.mod_lt _ (by decide))]
    exact (List.get_eq_getElem DEEPENING_QUESTIONS
      ⟨(questionIndex + depth) % DEEPENING_QUESTIONS.length, Nat.mod_lt _ (by decide)⟩).symm

/-- Witness for C4 at concrete counters: the first initial question at
`(0, 0)` and the pool question `(2 + 1) mod 6 = 3` at `(2, 1)`. -/
theorem getCurrentQuestionAt_spec_witness :
    getCurrentQuestionAt 0 0 = "What do you feel right now?" ∧
    getCurrentQuestionAt 2 1 = "What do you really need right now?" :=
  ⟨((getCurrentQuestionAt_spec 0 0).1 rfl (by decide)).trans rfl,
   ((getCurrentQuestionAt_spec 2 1).2 (by decide)).trans rfl⟩

/-- C7: when the summarization call succeeds with a decodable body, the
published output is exactly the returned value, verbatim, on the output
screen. -/
theorem process_success_verbatim (s : AppState) (o : ProcessedOutput) :
    (step s (Action.complete (FetchResult.response true (some o)))).output = some o ∧
    (step s (Action.complete (FetchResult.response true (some o)))).screen = Screen.output :=
  ⟨rfl, rfl⟩

/-- C2: once processing begins the flow always ends on the output screen; on
any submission failure (network error, non-ok status, undecodable body) the
published output is the deterministic local fallback computed from the
finalized entries. -/
theorem process_always_reaches_output (s : AppState) (r : FetchResult) :
    (step s (Action.complete r)).screen = Screen.output ∧
    ((r = FetchResult.networkError ∨ (∃ b, r = FetchResult.response false b) ∨
        r = FetchResult.response true none) →
      (step s (Action.complete r)).output = some (fallbackOutput (finalEntries s))) := by
  refine ⟨?_, ?_⟩
  · rfl
  · rintro (rfl | ⟨b, rfl⟩ | rfl) <;> rfl

/-- Witness for C2: a network error on an empty session still ends on the
output screen carrying the fallback. -/
theorem process_always_reaches_output_witness :
    (step initState (Action.complete FetchResult.networkError)).screen = Screen.output ∧
    (step initState (Action.complete FetchResult.networkError)).output =
      some (fallbackOutput (finalEntries initState)) :=
  ⟨(process_always_reaches_output initState FetchResult.networkError).1,
   (process_always_reaches_output initState FetchResult.networkError).2 (Or.inl rfl)⟩

/-- C5: Complete finalizes the entries in unmodified order and shows the
processing screen, appending the trimmed current buffer as a final entry at
the current depth exactly when it is non-empty after trimming. -/
theorem complete_finalizes (s : AppState) :
    (handleComplete s).screen = Screen.processing ∧
    (jsTrim s.currentAnswer ≠ "" →
      (handleComplete s).entries = s.entries ++
        [{ question := getCurrentQuestion s, answer := jsTrim s.currentAnswer,
           depth := s.depth }]) ∧
    (jsTrim s.currentAnswer = "" → (handleComplete s).entries = s.entries) := by
  refine ⟨rfl, ?_, ?_⟩
  · intro h
    simp [handleComplete, finalEntries, h]
  · intro h
    simp [handleComplete, finalEntries, h]

/-- Witness for C5: completing with the whitespace-padded buffer of
`sampleState` appends its trimmed answer. -/
theorem complete_finalizes_witness :
    jsTrim sampleState.currentAnswer ≠ "" ∧
    (handleComplete sampleState).entries = sampleState.entries ++
      [{ question := getCurrentQuestion sampleState,
         answer := jsTrim sampleState.currentAnswer, depth := sampleState.depth }] :=
  ⟨by decide, (complete_finalizes sampleState).2.1 (by decide)⟩

/-- C9: the API handler answers every POST with status 200, and every internal
failure — unparseable request body, or (on the credentialed path) an upstream
fetch error, non-success status, or undecodable upstream reply — carries the
five fixed placeholder narrative fields. -/
theorem handler_post_always_200 (parsedBody : Option RequestBody)
    (apiKey : Option String) (upstream : UpstreamResult) :
    (handler "POST" parsedBody apiKey upstream).status = 200 ∧
    (parsedBody = none →
      (handler "POST" parsedBody apiKey upstream).body = .json handlerErrorFallback) ∧
    (∀ b k, parsedBody = some b → apiKey = some k →
      (upstream = .fetchError ∨ upstream = .httpError ∨ upstream = .badBody) →
      (handler "POST" parsedBody apiKey upstream).body = .json handlerErrorFallback) := by
  refine ⟨?_, ?_, ?_⟩
  · cases parsedBody with
    | none => rfl
    | some b =>
      cases apiKey with
      | none => rfl
      | some k => cases upstream <;> rfl
  · rintro rfl
    rfl
  · rintro b k rfl rfl (rfl | rfl | rfl) <;> rfl

/-- Witness for C9: an unparseable POST body is answered 200 with the
placeholder fields. -/
theorem handler_post_always_200_witness :
    (handler "POST" none none UpstreamResult.fetchError).status = 200 ∧
    (handler "POST" none none UpstreamResult.fetchError).body = .json handlerErrorFallback :=
  ⟨(handler_post_always_200 none none UpstreamResult.fetchError).1,
   (handler_post_always_200 none none UpstreamResult.fetchError).2.1 rfl⟩

/-- Follows the spec sentence for the legacy request shape: a present,
non-empty legacy field becomes one depth-0 entry; a missing or empty one is
dropped. -/
def specLegacyField (question : String) (field : Option String) : List InquiryEntry :=
  match field with
  | none => []
  | some a => if a = "" then [] else [{ question := question, answer := a, depth := 0 }]

/-- C8: when the request entries list is absent or empty and some legacy
field is non-empty, the boundary normalizes the legacy flat shape into the
modern shape: the three depth-0 entries in the fixed order, with missing or
empty legacy fields dropped. -/
theorem normalizeEntries_legacy (body : RequestBody)
    (hent : body.entries = none ∨ body.entries = some [])
    (hleg : legacyTruthy body.whatYouFeel ∨ legacyTruthy body.whereYouFeelIt ∨
      legacyTruthy body.whatItNeeds) :
    normalizeEntries body =
      specLegacyField "What do you feel?" body.whatYouFeel ++
      specLegacyField "Where do you feel it?" body.whereYouFeelIt ++
      specLegacyField "What does it need?" body.whatItNeeds := by
  have hget : body.entries.getD [] = [] := by
    rcases hent with h | h <;> rw [h] <;> rfl
  rw [normalizeEntries, hget]
  rw [if_pos ⟨rfl, hleg⟩]
  rcases body with ⟨e, wyf, wyfi, win⟩
  cases wyf <;> cases wyfi <;> cases win <;>
    simp [specLegacyField, List.filter] <;>
    split_ifs <;>
    simp_all [List.filter]

/-- Witness for C8: a legacy body with an empty middle field normalizes to the
first and third entries only. -/
theorem normalizeEntries_legacy_witness :
    normalizeEntries
      { entries := none, whatYouFeel := some "tired", whereYouFeelIt := some "",
        whatItNeeds := some "rest" } =
      [{ question := "What do you feel?", answer := "tired", depth := 0 },
       { question := "What does it need?", answer := "rest", depth := 0 }] :=
  (normalizeEntries_legacy
    { entries := none, whatYouFeel := some "tired", whereYouFeelIt := some "",
      whatItNeeds := some "rest" }
    (Or.inl rfl) (Or.inl (by decide))).trans (by decide)

/-- JavaScript `xs[i] || d` on mapped answers coincides with optional indexing
followed by the default when every answer in the list is non-empty. -/
theorem jsIndexOr_map_answer (l : List InquiryEntry) (i : Nat) (d : String)
    (h : ∀ e ∈ l, e.answer ≠ "") :
    jsIndexOr (l.map (fun e => e.answer)) i d =
      (l[i]?.map (fun e => e.answer)).getD d := by
  unfold jsIndexOr
  cases hg : l[i]? with
  | none =>
    have hlen : l.length ≤ i := List.getElem?_eq_none_iff.mp hg
    have hd : (l.map (fun e => e.answer)).getD i "" = "" :=
      List.getD_eq_default _ _ (by simpa using hlen)
    show (if (l.map (fun e => e.answer)).getD i "" = "" then d
          else (l.map (fun e => e.answer)).getD i "") = _
    rw [hd, if_pos rfl]
    rfl
  | some e =>
    have hmem : e ∈ l := List.getElem?_mem hg
    have hd : (l.map (fun e => e.answer)).getD i "" = e.answer := by
      rw [List.getD_eq_getElem?_getD, List.getElem?_map, hg]
      rfl
    show (if (l.map (fun e => e.answer)).getD i "" = "" then d
          else (l.map (fun e => e.answer)).getD i "") = _
    rw [hd, if_neg (h e hmem)]
    rfl

/-- C1: on submission failure the locally synthesized fallback takes its
primary field from the first depth-0 answer, its secondary field from the
second depth-0 answer (placeholders when absent), and its tertiary field from
the last depth>0 answer through the fixed template when any depth>0 entry
exists, else from the third depth-0 answer; in particular three depth-0
entries with no deepening give exactly their three answers, and one extra
deepening answer takes over the tertiary field. -/
theorem fallbackOutput_spec (entries : List InquiryEntry)
    (h : ∀ e ∈ entries, e.answer ≠ "") :
    ((fallbackOutput entries).coreFeeling =
      ((entries.filter (fun e => e.depth = 0))[0]?.map (fun e => e.answer)).getD
        "Something important surfaced.") ∧
    ((fallbackOutput entries).bodyWisdom =
      ((entries.filter (fun e => e.depth = 0))[1]?.map (fun e => e.answer)).getD
        "Your body is holding this.") ∧
    (entries.filter (fun e => e.depth > 0) = [] →
      (fallbackOutput entries).underlyingNeed =
        ((entries.filter (fun e => e.depth = 0))[2]?.map (fun e => e.answer)).getD
          "A need for presence.") ∧
    (∀ e, (entries.filter (fun e => e.depth > 0)).getLast? = some e →
      (fallbackOutput entries).underlyingNeed = "Beneath the surface: " ++ e.answer) ∧
    (∀ q1 a1 q2 a2 q3 a3 : String, a1 ≠ "" → a2 ≠ "" → a3 ≠ "" →
      (fallbackOutput [⟨q1, a1, 0⟩, ⟨q2, a2, 0⟩, ⟨q3, a3, 0⟩]).coreFeeling = a1 ∧
      (fallbackOutput [⟨q1, a1, 0⟩, ⟨q2, a2, 0⟩, ⟨q3, a3, 0⟩]).bodyWisdom = a2 ∧
      (fallbackOutput [⟨q1, a1, 0⟩, ⟨q2, a2, 0⟩, ⟨q3, a3, 0⟩]).underlyingNeed = a3) ∧
    (∀ q1 a1 q2 a2 q3 a3 q4 a4 : String,
      (fallbackOutput [⟨q1, a1, 0⟩, ⟨q2, a2, 0⟩, ⟨q3, a3, 0⟩, ⟨q4, a4, 1⟩]).underlyingNeed =
        "Beneath the surface: " ++ a4) := by
  have hF : ∀ e ∈ entries.filter (fun e => e.depth = 0), e.answer ≠ "" :=
    fun e he => h e (List.mem_of_mem_filter he)
  refine ⟨?_, ?_, ?_, ?_, ?_, ?_⟩
  · simp only [fallbackOutput]
    exact jsIndexOr_map_answer _ 0 _ hF
  · simp only [fallbackOutput]
    exact jsIndexOr_map_answer _ 1 _ hF
  · intro hd
    simp only [fallbackOutput, hd]
    exact jsIndexOr_map_answer _ 2 _ hF
  · intro e he
    have hne : entries.filter (fun e => e.depth > 0) ≠ [] := by
      intro h0
      rw [h0] at he
      simp at he
    simp only [fallbackOutput]
    rw [if_pos (by simpa using List.length_pos.mpr hne)]
    have hlast :
        ((entries.filter (fun e => e.depth > 0)).map (fun e => e.answer)).getD
          (((entries.filter (fun e => e.depth > 0)).map (fun e => e.answer)).length - 1) "" =
          e.answer := by
      rw [List.getD_eq_getElem?_getD, ← List.getLast?_eq_getElem?, List.getLast?_map, he]
      rfl
    rw [hlast]
  · intro q1 a1 q2 a2 q3 a3 h1 h2 h3
    refine ⟨?_, ?_, ?_⟩ <;> simp [fallbackOutput, jsIndexOr, h1, h2, h3]
  · intro q1 a1 q2 a2 q3 a3 q4 a4
    rfl

/-- Witness for C1: the fixed three-entry example with concrete answers yields
exactly those answers. -/
theorem fallbackOutput_spec_witness :
    (fallbackOutput [⟨"q1", "a1", 0⟩, ⟨"q2", "a2", 0⟩, ⟨"q3", "a3", 0⟩]).coreFeeling = "a1" ∧
    (fallbackOutput [⟨"q1", "a1", 0⟩, ⟨"q2", "a2", 0⟩, ⟨"q3", "a3", 0⟩]).bodyWisdom = "a2" ∧
    (fallbackOutput [⟨"q1", "a1", 0⟩, ⟨"q2", "a2", 0⟩, ⟨"q3", "a3", 0⟩]).underlyingNeed = "a3" :=
  (fallbackOutput_spec [] (by simp)).2.2.2.2.1 "q1" "a1" "q2" "a2" "q3" "a3"
    (by decide) (by decide) (by decide)

/-- The head of a `dropWhile` never satisfies the dropped predicate. -/
theorem head?_dropWhile_eq_some {p : Char → Bool} {l : List Char} {c : Char}
    (h : (l.dropWhile p).head? = some c) : p c = false := by
  have hm := List.head?_dropWhile_not p l
  rw [h] at hm
  exact hm

/-- A `dropWhile` removes elements only at the front, so a non-empty result keeps
the last element. -/
theorem getLast?_dropWhile_of_ne_nil {p : Char → Bool} {l : List Char}
    (h : l.dropWhile p ≠ []) : (l.dropWhile p).getLast? = l.getLast? := by
  have hl : l ≠ [] := by
    intro e
    subst e
    exact h rfl
  rw [List.getLast?_eq_getLast _ h, List.getLast?_eq_getLast _ hl]
  exact congrArg some ((List.dropWhile_suffix p).getLast h)

/-- The first character surviving a trim is not whitespace. -/
theorem trimChars_head_not_ws {l : List Char} {c : Char}
    (h : (trimChars l).head? = some c) : c.isWhitespace = false := by
  unfold trimChars at h
  rw [List.head?_reverse] at h
  have hne : ((l.dropWhile Char.isWhitespace).reverse.dropWhile Char.isWhitespace) ≠ [] := by
    intro e
    rw [e] at h
    simp at h
  rw [getLast?_dropWhile_of_ne_nil hne, List.getLast?_reverse] at h
  exact head?_dropWhile_eq_some h

/-- The last character surviving a trim is not whitespace. -/
theorem trimChars_getLast_not_ws {l : List Char} {c : Char}
    (h : (trimChars l).getLast? = some c) : c.isWhitespace = false := by
  unfold trimChars at h
  rw [List.getLast?_reverse] at h
  exact head?_dropWhile_eq_some h

/-- A string with no leading and no trailing whitespace character. -/
def IsTrimmed (s : String) : Prop :=
  (∀ c, s.data.head? = some c → c.isWhitespace = false) ∧
  (∀ c, s.data.getLast? = some c → c.isWhitespace = false)

/-- The result of the embedded JavaScript trim has no edge whitespace. -/
theorem jsTrim_isTrimmed (b : String) : IsTrimmed (jsTrim b) :=
  ⟨fun _ hc => trimChars_head_not_ws hc, fun _ hc => trimChars_getLast_not_ws hc⟩

/-- Advancing either leaves `entries` unchanged (blocked by the validation
guard) or appends exactly the committed entry built from the trimmed buffer. -/
theorem handleNext_entries (s : AppState) :
    (handleNext s).entries = s.entries ∨
    (jsTrim s.currentAnswer ≠ "" ∧ (handleNext s).entries =
      s.entries ++ [⟨getCurrentQuestion s, jsTrim s.currentAnswer, s.depth⟩]) := by
  unfold handleNext
  by_cases hb : jsTrim s.currentAnswer = ""
  · rw [if_pos hb]
    exact Or.inl rfl
  · rw [if_neg hb]
    refine Or.inr ⟨hb, ?_⟩
    split_ifs <;> rfl

/-- Finalizing either keeps `entries` (empty trailing buffer) or appends
exactly the committed entry built from the trimmed buffer. -/
theorem finalEntries_cases (s : AppState) :
    finalEntries s = s.entries ∨
    (jsTrim s.currentAnswer ≠ "" ∧ finalEntries s =
      s.entries ++ [⟨getCurrentQuestion s, jsTrim s.currentAnswer, s.depth⟩]) := by
  unfold finalEntries
  by_cases hb : jsTrim s.currentAnswer = ""
  · rw [if_pos hb]
    exact Or.inl rfl
  · rw [if_neg hb]
    exact Or.inr ⟨hb, rfl⟩

/-- In every reachable state, each committed answer is the trim of the buffer
committed under a non-empty-trim guard. -/
theorem entries_invariant {s : AppState} (hs : Reachable s) :
    ∀ e ∈ s.entries, ∃ b : String, jsTrim b ≠ "" ∧ e.answer = jsTrim b := by
  induction hs with
  | init =>
    intro e he
    simp [initState] at he
  | step s hs a ih =>
    cases a with
    | start =>
      intro e he
      simp [step, handleStart] at he
    | setAnswer t =>
      intro e he
      exact ih e he
    | reset =>
      intro e he
      simp [step, handleReset, initState] at he
    | next =>
      intro e he
      simp only [step] at he
      rcases handleNext_entries s with h1 | ⟨hb, h1⟩
      · rw [h1] at he
        exact ih e he
      · rw [h1] at he
        rcases List.mem_append.mp he with h2 | h2
        · exact ih e h2
        · refine ⟨s.currentAnswer, hb, ?_⟩
          rw [List.mem_singleton.mp h2]
    | goDeeper =>
      intro e he
      simp only [step, handleGoDeeper] at he
      rcases handleNext_entries s with h1 | ⟨hb, h1⟩
      · rw [h1] at he
        exact ih e he
      · rw [h1] at he
        rcases List.mem_append.mp he with h2 | h2
        · exact ih e h2
        · refine ⟨s.currentAnswer, hb, ?_⟩
          rw [List.mem_singleton.mp h2]
    | complete r =>
      intro e he
      simp only [step, resolveProcess, handleComplete] at he
      rcases finalEntries_cases s with h1 | ⟨hb, h1⟩
      · rw [h1] at he
        exact ih e he
      · rw [h1] at he
        rcases List.mem_append.mp he with h2 | h2
        · exact ih e h2
        · refine ⟨s.currentAnswer, hb, ?_⟩
          rw [List.mem_singleton.mp h2]

/-- C6: in every state reachable from the Welcome screen by start, Advance /
Go-deeper, Complete and Reset actions, no committed entry has an empty
answer. -/
theorem reachable_entries_nonempty (s : AppState) (hs : Reachable s) :
    ∀ e ∈ s.entries, e.answer ≠ "" := by
  intro e he
  obtain ⟨b, hb, hba⟩ := entries_invariant hs e he
  rw [hba]
  exact hb

/-- Witness for C6: after start, typing a padded answer and advancing, the
single committed entry has a non-empty answer. -/
theorem reachable_entries_nonempty_witness :
    ({ question := "What do you feel right now?", answer := "hi", depth := 0 }
      : InquiryEntry).answer ≠ "" :=
  reachable_entries_nonempty _
    (Reachable.step _
      (Reachable.step _ (Reachable.step _ Reachable.init Action.start)
        (Action.setAnswer "  hi  "))
      Action.next)
    _ (by decide)

/-- C10: in every reachable state, each committed answer is the trimmed buffer
at commit time, hence carries no leading or trailing whitespace. -/
theorem reachable_entries_trimmed (s : AppState) (hs : Reachable s) :
    ∀ e ∈ s.entries, (∃ b : String, e.answer = jsTrim b) ∧ IsTrimmed e.answer := by
  intro e he
  obtain ⟨b, _hb, hba⟩ := entries_invariant hs e he
  refine ⟨⟨b, hba⟩, ?_⟩
  rw [hba]
  exact jsTrim_isTrimmed b

/-- Witness for C10: the entry committed from the buffer `"  ok "` holds the
trimmed answer `"ok"`. -/
theorem reachable_entries_trimmed_witness :
    (∃ b : String,
      ({ question := "What do you feel right now?", answer := "ok", depth := 0 }
        : InquiryEntry).answer = jsTrim b) ∧
    IsTrimmed ({ question := "What do you feel right now?", answer := "ok", depth := 0 }
      : InquiryEntry).answer :=
  reachable_entries_trimmed _
    (Reachable.step _
      (Reachable.step _ (Reachable.step _ Reachable.init Action.start)
        (Action.setAnswer "  ok "))
      Action.next)
    _ (by decide)

/-- C3: with a non-empty trimmed buffer, Advance appends the committed entry
and then advances within the initial questions, switches to depth 1 at the
last initial question, or advances at the same depth once deepening; hence at
depth 0 the three fixed initial questions are visited in order and answering
the third sets depth 1, index 0. -/
theorem handleNext_spec (s s0 : AppState) (a1 a2 a3 : String) :
    (jsTrim s.currentAnswer ≠ "" →
      (s.depth = 0 → s.currentQuestionIndex < INITIAL_QUESTIONS.length - 1 →
        handleNext s =
          { s with
            entries := s.entries ++
              [⟨getCurrentQuestion s, jsTrim s.currentAnswer, s.depth⟩]
            currentQuestionIndex := s.currentQuestionIndex + 1
            currentAnswer := "" }) ∧
      (s.depth = 0 → s.currentQuestionIndex = INITIAL_QUESTIONS.length - 1 →
        handleNext s =
          { s with
            entries := s.entries ++
              [⟨getCurrentQuestion s, jsTrim s.currentAnswer, s.depth⟩]
            depth := 1
            currentQuestionIndex := 0
            currentAnswer := "" }) ∧
      (1 ≤ s.depth →
        handleNext s =
          { s with
            entries := s.entries ++
              [⟨getCurrentQuestion s, jsTrim s.currentAnswer, s.depth⟩]
            currentQuestionIndex := s.currentQuestionIndex + 1
            currentAnswer := "" })) ∧
    (jsTrim a1 ≠ "" → jsTrim a2 ≠ "" → jsTrim a3 ≠ "" →
      getCurrentQuestion (handleStart s0) = INITIAL_QUESTIONS.getD 0 "" ∧
      getCurrentQuestion
          (handleNext { handleStart s0 with currentAnswer := a1 }) =
        INITIAL_QUESTIONS.getD 1 "" ∧
      getCurrentQuestion
          (handleNext { handleNext { handleStart s0 with currentAnswer := a1 } with
            currentAnswer := a2 }) =
        INITIAL_QUESTIONS.getD 2 "" ∧
      (handleNext { handleNext { handleNext { handleStart s0 with
          currentAnswer := a1 } with currentAnswer := a2 } with
          currentAnswer := a3 }).depth = 1 ∧
      (handleNext { handleNext { handleNext { handleStart s0 with
          currentAnswer := a1 } with currentAnswer := a2 } with
          currentAnswer := a3 }).currentQuestionIndex = 0) := by
  constructor
  · intro hb
    refine ⟨?_, ?_, ?_⟩
    · intro hd hq
      unfold handleNext
      rw [if_neg hb, if_pos ⟨hd, hq⟩]
    · intro hd hq
      have hnc : ¬ (s.depth = 0 ∧
          s.currentQuestionIndex < INITIAL_QUESTIONS.length - 1) := by
        rintro ⟨_, hlt⟩
        omega
      unfold handleNext
      rw [if_neg hb, if_neg hnc, if_pos hd]
    · intro hd
      have h0 : ¬ s.depth = 0 := by omega
      have hnc : ¬ (s.depth = 0 ∧
          s.currentQuestionIndex < INITIAL_QUESTIONS.length - 1) :=
        fun hc => h0 hc.1
      unfold handleNext
      rw [if_neg hb, if_neg hnc, if_neg h0]
  · intro h1 h2 h3
    refine ⟨?_, ?_, ?_, ?_, ?_⟩ <;>
      simp +decide [handleNext, handleStart, getCurrentQuestion,
        getCurrentQuestionAt, h1, h2, h3, INITIAL_QUESTIONS]

/-- Witness for C3: advancing past `sampleState` increments the index and
clears the buffer, and three concrete answers end the initial phase at
depth 1, index 0. -/
theorem handleNext_spec_witness :
    handleNext sampleState =
      { sampleState with
        entries := sampleState.entries ++
          [⟨getCurrentQuestion sampleState, jsTrim sampleState.currentAnswer,
            sampleState.depth⟩]
        currentQuestionIndex := sampleState.currentQuestionIndex + 1
        currentAnswer := "" } ∧
    (handleNext { handleNext { handleNext { handleStart initState with
        currentAnswer := "a" } with currentAnswer := "b" } with
        currentAnswer := "c" }).depth = 1 :=
  ⟨((handleNext_spec sampleState initState "a" "b" "c").1 (by decide)).1
      (by decide) (by decide),
   ((handleNext_spec sampleState initState "a" "b" "c").2 (by decide) (by decide)
      (by decide)).2.2.2.1⟩

end WDYF
